import Mathlib

/-!
Verification of `naive-server.go` (`src/cmd/main.go`)

A shallow embedding of the single-file Go HTTP server. Go byte slices and Go
strings (which are byte sequences) are both modelled as `List Nat` (byte
values); Lean string literals are converted with `strToBytes`, which performs
UTF-8 encoding so that multi-byte characters (the server name contains some)
get their real wire bytes.

The connection's input is modelled as the flat list of bytes the client sent
before closing; `bufio.ReadBytes('\n')` becomes `readLine`, and the single
`bufio.Read(buf)` used for the POST body returns every remaining available
byte up to the requested count (this is the behaviour of a buffered reader
whose client has already transmitted; a short read returns the available
bytes with a nil error, an error is returned only when no byte is available).

Go runtime panics (slice index out of range, `make` with negative length) are
modelled by an `Except GoPanic` result: a `.error` outcome means the Go code
panics at that point instead of producing a value.

The file system collaborator is an association list from full path to
contents, plus a set of paths on which `os.WriteFile` fails, so that the
write-failure branch is expressible. `time.Now().Format(...)` is modelled by
passing the formatted date bytes as an explicit `now` parameter
(`buildResponse` is pure given a clock reading).
-/

set_option maxRecDepth 8000

namespace NaiveServer

/-- A Go runtime panic, as an explicit outcome. -/
inductive GoPanic where
  | indexOOB
  | negativeMake
deriving DecidableEq, Repr

/-- UTF-8 encoding of one code point, as byte values. -/
def utf8Char (n : Nat) : List Nat :=
  if n < 0x80 then [n]
  else if n < 0x800 then [0xC0 + n / 64, 0x80 + n % 64]
  else if n < 0x10000 then [0xE0 + n / 4096, 0x80 + n / 64 % 64, 0x80 + n % 64]
  else [0xF0 + n / 262144, 0x80 + n / 4096 % 64, 0x80 + n / 64 % 64, 0x80 + n % 64]

/-- The bytes of a Go string literal (`[]byte(s)`): UTF-8 encoding. -/
def strToBytes (s : String) : List Nat :=
  s.data.flatMap (fun c => utf8Char c.toNat)

/-- `"\r\n"` as bytes. -/
def crlf : List Nat := [13, 10]

/-- The whitespace cutset used by the Go code in `strings.Trim` calls:
`"\r\n "` / `"\n\r "` are the same byte set. -/
def wsCut : List Nat := [10, 13, 32]

/-- `strings.Split(s, sep)` for a one-byte separator: parts between
occurrences of `b` (always at least one part, possibly empty). -/
def splitOnByte (b : Nat) : List Nat → List (List Nat)
  | [] => [[]]
  | c :: rest =>
    if c = b then [] :: splitOnByte b rest
    else
      match splitOnByte b rest with
      | [] => [[c]]
      | p :: ps => (c :: p) :: ps

/-- `strings.Trim(s, cutset)`: remove leading and trailing bytes that are in
the cutset. -/
def trimBytes (cut : List Nat) (s : List Nat) : List Nat :=
  ((s.dropWhile (fun c => decide (c ∈ cut))).reverse.dropWhile
    (fun c => decide (c ∈ cut))).reverse

/-- ASCII decimal digit test. -/
def isDigitB (c : Nat) : Bool := 48 ≤ c && c ≤ 57

/-- Value of a digit string (digits already validated). -/
def digitsToNat (s : List Nat) : Nat :=
  s.foldl (fun a c => a * 10 + (c - 48)) 0

/-- `strconv.Atoi`: optional sign, then one or more digits; `none` on a
syntax error (the Go call then yields the value 0 together with an error).
Out-of-range inputs (beyond 64-bit) are not clamped here; no input in this
development reaches that range. -/
def atoiBytes (s : List Nat) : Option Int :=
  let signDigits : Int × List Nat :=
    match s with
    | 43 :: rest => (1, rest)
    | 45 :: rest => (-1, rest)
    | _ => (1, s)
  if signDigits.2 = [] ∨ ¬ signDigits.2.all isDigitB then none
  else some (signDigits.1 * digitsToNat signDigits.2)

/-- Space bytes recognised by `fmt`'s scanner and `strings.Fields`:
`'\t' '\n' '\v' '\f' '\r' ' '`. -/
def isSpaceByte (c : Nat) : Bool :=
  c = 9 || c = 10 || c = 11 || c = 12 || c = 13 || c = 32

/-- Split on every space byte (empty parts kept). -/
def splitOnSpace : List Nat → List (List Nat)
  | [] => [[]]
  | c :: rest =>
    if isSpaceByte c then [] :: splitOnSpace rest
    else
      match splitOnSpace rest with
      | [] => [[c]]
      | p :: ps => (c :: p) :: ps

/-- The whitespace-separated tokens of a byte string, as scanned by
successive `%s` verbs (equivalently `strings.Fields`). -/
def fields (s : List Nat) : List (List Nat) :=
  (splitOnSpace s).filter (fun p => ¬ p = [])

/-- `strings.Join(parts, "/")`. -/
def joinSlash : List (List Nat) → List Nat
  | [] => []
  | [x] => x
  | x :: y :: rest => x ++ 47 :: joinSlash (y :: rest)

/-- Decimal representation of a natural number, as bytes (`fmt`'s `%d`). -/
def natToDec (n : Nat) : List Nat := strToBytes (Nat.repr n)

/-- `bufio.Reader.ReadBytes('\n')` on the remaining stream: the line up to
and including the first `'\n'`, plus the rest; `none` when the stream ends
with no `'\n'` left (the data read together with an EOF error in Go). -/
def readLine : List Nat → Option (List Nat × List Nat)
  | [] => none
  | c :: rest =>
    if c = 10 then some ([c], rest)
    else
      match readLine rest with
      | none => none
      | some (l, r) => some (c :: l, r)

/-- The request-line read tolerates EOF (`err != io.EOF` check): with no
`'\n'` in the stream the data read so far is used as the line. -/
def readLineEOF (s : List Nat) : List Nat × List Nat :=
  match readLine s with
  | some r => r
  | none => (s, [])

/-! ## Data model (the Go `request`, `content` structs and constants) -/

/-- The Go `request` struct. Field defaults are the Go zero values. -/
structure request where
  method : List Nat := []
  httpVersion : List Nat := []
  host : List Nat := []
  userAgent : List Nat := []
  path : List Nat := []
  pathParts : List (List Nat) := []
  contentLength : Int := 0
deriving DecidableEq, Repr

/-- The Go `content` struct. -/
structure content where
  contentType : List Nat
  body : List Nat
deriving DecidableEq, Repr

def serverVersion : String := "0.1"

def serverName : String := "naive-server¯\\_(ツ)_/¯"

def statusOK : Nat := 200
def statusCreated : Nat := 201
def statusInternalServerError : Nat := 500
def statusNotFound : Nat := 404
def statusBadRequest : Nat := 400
def statusMethodNotAllowed : Nat := 405

def methodGet : List Nat := strToBytes "GET"
def methodPost : List Nat := strToBytes "POST"

def textStatusOK : String := "OK"
def textStatusCreated : String := "Created"
def textStatusInternal : String := "Internal Server Error"
def textStatusNotFound : String := "Not Found"
def textStatusBadRequest : String := "Bad Request"
def textStatusMethodNotAllowed : String := "Method Not Allowed"

def contentTypeTextPlain : List Nat := strToBytes "text/plain"
def contentTypeOctetStream : List Nat := strToBytes "application/octet-stream"

/-! ## File-system collaborator -/

/-- The file-system collaborator: full path ↦ contents, newest entry first
(so an overwrite shadows the old entry), plus the set of paths on which
`os.WriteFile` fails with an IO error. -/
structure FS where
  files : List (List Nat × List Nat) := []
  badWrites : List (List Nat) := []
deriving DecidableEq, Repr

/-- `os.ReadFile`: `none` is any read error (including not-found). -/
def readFileFS : List (List Nat × List Nat) → List Nat → Option (List Nat)
  | [], _ => none
  | (k, v) :: rest, p => if k = p then some v else readFileFS rest p

/-- `os.WriteFile`: creates or overwrites; `none` on an IO error. -/
def writeFileFS (fs : FS) (p b : List Nat) : Option FS :=
  if p ∈ fs.badWrites then none
  else some { fs with files := (p, b) :: fs.files }

/-! ## The server functions -/

/-- `parseHeader` (main.go:224): `strings.Split(string(line), ":")` splits on
every colon; the switch compares the trimmed `parts[0]` and, on a match,
reads `parts[1]` — which is an index-out-of-range panic when the line has no
colon. On a `Content-Length` whose value fails `strconv.Atoi`, the Go code
still stores `conLen`, which is 0 on a syntax error. -/
def parseHeader (line : List Nat) (req : request) : Except GoPanic request :=
  let parts := splitOnByte 58 line
  let key := trimBytes wsCut (parts.headD [])
  if key = strToBytes "Host" then
    match parts.get? 1 with
    | none => .error .indexOOB
    | some v => .ok { req with host := trimBytes wsCut v }
  else if key = strToBytes "User-Agent" then
    match parts.get? 1 with
    | none => .error .indexOOB
    | some v => .ok { req with userAgent := trimBytes wsCut v }
  else if key = strToBytes "Content-Length" then
    match parts.get? 1 with
    | none => .error .indexOOB
    | some v =>
      .ok { req with contentLength :=
        match atoiBytes (trimBytes wsCut v) with
        | some i => i
        | none => 0 }
  else .ok req

/-- Outcome of the header loop: the stream ended mid-headers (a fatal parse
error, `handleConn` returns an error without writing), or a panic escaped
from `parseHeader`. -/
inductive HeaderLoopErr where
  | streamEnd
  | panicked (g : GoPanic)
deriving DecidableEq, Repr

theorem readLine_length_lt :
    ∀ (s line rest : List Nat), readLine s = some (line, rest) →
      rest.length < s.length := by
  intro s
  induction s with
  | nil => intro line rest h; simp [readLine] at h
  | cons c cs ih =>
    intro line rest h
    by_cases hc : c = 10
    · simp [readLine, hc] at h
      simp [← h.2]
    · simp [readLine, hc] at h
      rcases hr : readLine cs with _ | ⟨l, r⟩
      · rw [hr] at h; simp at h
      · rw [hr] at h
        simp at h
        have := ih l r hr
        simp [← h.2]
        omega

/-- Fuel-indexed header loop; each iteration consumes at least one byte of
the stream, so any fuel above the stream length gives the loop's true
behaviour (`parseHeadersF_fuel` below). -/
def parseHeadersF : Nat → List Nat → request →
    Except HeaderLoopErr (request × List Nat)
  | 0, _, _ => .error .streamEnd
  | fuel + 1, s, req =>
    match readLine s with
    | none => .error .streamEnd
    | some (line, rest) =>
      if line.length = 2 then .ok (req, rest)
      else
        match parseHeader line req with
        | .error g => .error (.panicked g)
        | .ok req2 => parseHeadersF fuel rest req2

/-- The header loop (main.go:142–154): read a line, stop when its raw byte
length is 2, otherwise hand it to `parseHeader` and continue. Returns the
populated request and the unconsumed remainder of the stream. -/
def parseHeaders (s : List Nat) (req : request) :
    Except HeaderLoopErr (request × List Nat) :=
  parseHeadersF (s.length + 1) s req

theorem parseHeadersF_fuel :
    ∀ (f g : Nat) (s : List Nat) (req : request), s.length < f → s.length < g →
      parseHeadersF f s req = parseHeadersF g s req := by
  intro f
  induction f with
  | zero => intro g s req hf; omega
  | succ f ih =>
    intro g s req hf hg
    match g, hg with
    | g + 1, _ =>
      show parseHeadersF (f + 1) s req = parseHeadersF (g + 1) s req
      rw [parseHeadersF, parseHeadersF]
      rcases hr : readLine s with _ | ⟨line, rest⟩
      · rfl
      · have hlt := readLine_length_lt s line rest hr
        by_cases hl : line.length = 2
        · simp [hl]
        · simp only [hl, if_false]
          rcases parseHeader line req with g2 | req2
          · rfl
          · exact ih g rest req2 (by omega) (by omega)

/-- One-step unfolding of `parseHeaders`, as the Go loop reads. -/
theorem parseHeaders_step (s : List Nat) (req : request) :
    parseHeaders s req =
      match readLine s with
      | none => .error .streamEnd
      | some (line, rest) =>
        if line.length = 2 then .ok (req, rest)
        else
          match parseHeader line req with
          | .error g => .error (.panicked g)
          | .ok req2 => parseHeaders rest req2 := by
  rw [parseHeaders, parseHeadersF]
  rcases hr : readLine s with _ | ⟨line, rest⟩
  · rfl
  · have hlt := readLine_length_lt s line rest hr
    by_cases hl : line.length = 2
    · simp [hl]
    · simp only [hl, if_false]
      rcases parseHeader line req with g2 | req2
      · rfl
      · exact parseHeadersF_fuel _ _ rest req2 (by omega) (by omega)

/-- The status-line switch of `buildResponse` (main.go:245–254): only the
four listed codes produce a status line; any other code (in particular 400
and 500) falls through the switch and writes nothing. -/
def statusLine (respType : Nat) : List Nat :=
  if respType = statusOK then
    strToBytes ("HTTP/1.1 " ++ Nat.repr statusOK ++ " " ++ textStatusOK) ++ crlf
  else if respType = statusCreated then
    strToBytes ("HTTP/1.1 " ++ Nat.repr statusCreated ++ " " ++ textStatusCreated) ++ crlf
  else if respType = statusNotFound then
    strToBytes ("HTTP/1.1 " ++ Nat.repr statusNotFound ++ " " ++ textStatusNotFound) ++ crlf
  else if respType = statusMethodNotAllowed then
    strToBytes ("HTTP/1.1 " ++ Nat.repr statusMethodNotAllowed ++ " "
      ++ textStatusMethodNotAllowed) ++ crlf
  else []

/-- `buildResponse` (main.go:241–271). `now` is the formatted output of
`time.Now().Format("Mon, 02 Jan 2006 15:04:05 MST")` — the function is pure
given that clock reading. -/
def buildResponse (respType : Nat) (c : Option content) (now : List Nat) :
    List Nat :=
  statusLine respType
  ++ strToBytes "Date: " ++ now ++ crlf
  ++ strToBytes ("Server: " ++ serverName ++ " v" ++ serverVersion) ++ crlf
  ++ (match c with
      | some cc =>
        strToBytes "Content-Type: " ++ cc.contentType ++ crlf
        ++ strToBytes "Content-Length: " ++ natToDec cc.body.length ++ crlf
      | none => [])
  ++ crlf
  ++ (match c with
      | some cc => cc.body
      | none => [])

/-- Result of a connection handler run: the responses written to the
connection in order, the resulting file system, and whether `handleConn`
returned a non-nil error. -/
structure HResult where
  writes : List (List Nat) := []
  fs : FS
  errored : Bool := false
deriving DecidableEq, Repr

/-- The routing-and-writing half of `handleConn` (main.go:156–221), applied
to the parsed request and the unconsumed stream remainder (the body bytes
available to `reqReader.Read`). Mirrors the source exactly: the short-path
400 check, then POST dispatch (all branches return), then the GET switch —
whose branches do NOT return, so they fall through to the unconditional
405 write at main.go:219 (except the files read-failure branch, which
returns after its 404). The POST body read is a single `Read` into a
`contentLength`-sized buffer: a negative length panics in `make`, an error
is reported only when no byte is available, and a short read leaves the
tail of the buffer as zero bytes. -/
def routeAndWrite (req : request) (body : List Nat) (fs : FS)
    (dir now : List Nat) : Except GoPanic HResult :=
  if req.pathParts.length < 2 then
    .ok { writes := [buildResponse statusBadRequest none now], fs := fs }
  else if req.method = methodPost then
    if req.pathParts.getD 1 [] = strToBytes "files" then
      if req.contentLength < 0 then .error .negativeMake
      else
        let n := req.contentLength.toNat
        if n ≠ 0 ∧ body = [] then
          .ok { writes := [buildResponse statusInternalServerError none now],
                fs := fs, errored := true }
        else
          let buf := body.take n ++ List.replicate (n - (body.take n).length) 0
          match req.pathParts.get? 2 with
          | none => .error .indexOOB
          | some name =>
            match writeFileFS fs (dir ++ name) buf with
            | none =>
              .ok { writes := [buildResponse statusInternalServerError none now],
                    fs := fs, errored := true }
            | some fs2 =>
              .ok { writes := [buildResponse statusCreated none now], fs := fs2 }
    else
      .ok { writes := [buildResponse statusNotFound none now], fs := fs }
  else if req.method = methodGet then
    let key := req.pathParts.getD 1 []
    if key = [] then
      .ok { writes := [buildResponse statusOK none now,
                       buildResponse statusMethodNotAllowed none now], fs := fs }
    else if key = strToBytes "echo" then
      let c : content := ⟨strToBytes "text/plain", joinSlash (req.pathParts.drop 2)⟩
      .ok { writes := [buildResponse statusOK (some c) now,
                       buildResponse statusMethodNotAllowed none now], fs := fs }
    else if key = strToBytes "user-agent" then
      let c : content := ⟨contentTypeTextPlain, req.userAgent⟩
      .ok { writes := [buildResponse statusOK (some c) now,
                       buildResponse statusMethodNotAllowed none now], fs := fs }
    else if key = strToBytes "files" then
      match req.pathParts.get? 2 with
      | none => .error .indexOOB
      | some name =>
        match readFileFS fs.files (dir ++ name) with
        | none =>
          .ok { writes := [buildResponse statusNotFound none now],
                fs := fs, errored := true }
        | some data =>
          let c : content := ⟨contentTypeOctetStream, data⟩
          .ok { writes := [buildResponse statusOK (some c) now,
                           buildResponse statusMethodNotAllowed none now], fs := fs }
    else
      .ok { writes := [buildResponse statusNotFound none now,
                       buildResponse statusMethodNotAllowed none now], fs := fs }
  else
    .ok { writes := [buildResponse statusMethodNotAllowed none now], fs := fs }

/-- The request-line scan `fmt.Sscanf(line, "%s %s %s\r\n", ...)`: three
whitespace-separated tokens; fewer than three is an error (`handleConn`
then returns without writing anything). -/
def parseRequestLine (line : List Nat) :
    Option (List Nat × List Nat × List Nat) :=
  match fields line with
  | m :: p :: v :: _ => some (m, p, v)
  | _ => none

/-- `handleConn` (main.go:120–222): read the request line (EOF tolerated),
scan its three tokens, split the trimmed path on `/`, run the header loop,
then route and write. A header-loop read failure makes `handleConn` return
an error with nothing written; a panic inside the loop propagates. -/
def handleConn (conn : List Nat) (fs : FS) (dir now : List Nat) :
    Except GoPanic HResult :=
  let rl := readLineEOF conn
  match parseRequestLine rl.1 with
  | none => .ok { writes := [], fs := fs, errored := true }
  | some (m, p, v) =>
    let req : request :=
      { method := m, path := p, httpVersion := v,
        pathParts := splitOnByte 47 (trimBytes wsCut p) }
    match parseHeaders rl.2 req with
    | .error .streamEnd => .ok { writes := [], fs := fs, errored := true }
    | .error (.panicked g) => .error g
    | .ok (req2, rest) => routeAndWrite req2 rest fs dir now

instance {ε α : Type} [DecidableEq ε] [DecidableEq α] :
    DecidableEq (Except ε α) := fun a b =>
  match a, b with
  | .error e, .error f =>
    if h : e = f then .isTrue (by rw [h])
    else .isFalse (by intro hc; cases hc; exact h rfl)
  | .error _, .ok _ => .isFalse (by intro hc; cases hc)
  | .ok _, .error _ => .isFalse (by intro hc; cases hc)
  | .ok x, .ok y =>
    if h : x = y then .isTrue (by rw [h])
    else .isFalse (by intro hc; cases hc; exact h rfl)

/-! ## Helper lemmas -/

theorem splitOnByte_ne_nil (b : Nat) : ∀ s, splitOnByte b s ≠ [] := by
  intro s
  induction s with
  | nil => simp [splitOnByte]
  | cons c rest ih =>
    rw [splitOnByte]
    by_cases hc : c = b
    · simp [hc]
    · simp only [hc, if_false]
      cases h : splitOnByte b rest with
      | nil => exact absurd h ih
      | cons p ps => simp

theorem splitOnByte_not_mem (b : Nat) (s : List Nat) (h : b ∉ s) :
    splitOnByte b s = [s] := by
  induction s with
  | nil => rfl
  | cons c rest ih =>
    rw [splitOnByte]
    have hc : ¬ c = b := fun hc => h (by simp [hc])
    have hr : b ∉ rest := fun hr => h (by simp [hr])
    simp only [hc, if_false, ih hr]

theorem splitOnByte_length_ge_two (b : Nat) (s : List Nat) (h : b ∈ s) :
    2 ≤ (splitOnByte b s).length := by
  induction s with
  | nil => simp at h
  | cons c rest ih =>
    rw [splitOnByte]
    by_cases hc : c = b
    · have := splitOnByte_ne_nil b rest
      simp only [hc, if_pos rfl, List.length_cons]
      cases hr : splitOnByte b rest with
      | nil => exact absurd hr this
      | cons p ps => simp
    · have hm : b ∈ rest := by
        rcases List.mem_cons.mp h with h1 | h1
        · exact absurd h1.symm hc
        · exact h1
      simp only [hc, if_false]
      cases hr : splitOnByte b rest with
      | nil => exact absurd hr (splitOnByte_ne_nil b rest)
      | cons p ps =>
        have := ih hm
        rw [hr] at this
        simpa using this

theorem splitOnByte_append (b : Nat) (x y : List Nat) (hx : b ∉ x) :
    splitOnByte b (x ++ b :: y) = x :: splitOnByte b y := by
  induction x with
  | nil => simp [splitOnByte]
  | cons c rest ih =>
    have hc : ¬ c = b := fun hc => hx (by simp [hc])
    have hr : b ∉ rest := fun hr => hx (by simp [hr])
    rw [List.cons_append, splitOnByte]
    simp only [hc, if_false, ih hr]

theorem trimBytes_cons_of_mem (cut : List Nat) (c : Nat) (s : List Nat)
    (h : c ∈ cut) : trimBytes cut (c :: s) = trimBytes cut s := by
  simp [trimBytes, List.dropWhile_cons, h]

/-! ## Shared concrete inputs -/

/-- A fixed clock reading in the `time.Format` layout used by the server. -/
def sampleNow : List Nat := strToBytes "Mon, 01 Jan 2024 00:00:00 GMT"

/-! ## Claims -/

/-- C1. The spec says the handler writes exactly one response per request.
The GET switch in `handleConn` does not return, so control falls through to
the unconditional 405 write at main.go:219: a `GET /` request is answered by
the 200 response AND a second, non-empty 405 response. -/
theorem get_root_double_response :
    handleConn (strToBytes "GET / HTTP/1.1\r\n\r\n") {} [] sampleNow =
      .ok { writes := [buildResponse statusOK none sampleNow,
                       buildResponse statusMethodNotAllowed none sampleNow],
            fs := {}, errored := false }
    ∧ buildResponse statusMethodNotAllowed none sampleNow ≠ [] := by decide

/-- C2. The spec says every status code of the closed enum gets a status
line `HTTP/1.1 <code> <reason>\r\n`. The `buildResponse` switch has no case
for 400 or 500, so those responses carry no status line at all: the output
starts directly with the `Date` header. -/
theorem buildResponse_missing_status_line (now : List Nat) :
    buildResponse statusBadRequest none now =
      strToBytes "Date: " ++ now ++ crlf
      ++ strToBytes ("Server: " ++ serverName ++ " v" ++ serverVersion)
      ++ crlf ++ crlf
    ∧ buildResponse statusInternalServerError none now =
      strToBytes "Date: " ++ now ++ crlf
      ++ strToBytes ("Server: " ++ serverName ++ " v" ++ serverVersion)
      ++ crlf ++ crlf := by
  constructor <;>
    simp [buildResponse, statusLine, statusOK, statusCreated, statusNotFound,
      statusMethodNotAllowed, statusBadRequest, statusInternalServerError]

/-- C3 counterexample. The claim says a files-route request with fewer than
3 path segments gets a 400 response; in fact `GET /files` reaches the
unguarded `req.pathParts[2]` access and panics (index out of range), writing
nothing. -/
theorem files_short_path_panics :
    handleConn (strToBytes "GET /files HTTP/1.1\r\n\r\n") {} [] sampleNow =
      .error .indexOOB := by decide

/-- C4 counterexample. The claim says a POST body shorter than the declared
`Content-Length` yields a 500. With `Content-Length: 5` and only 3 body
bytes available, the single `Read` returns the 3 bytes without error, the
5-byte buffer keeps two zero bytes at its tail, the padded buffer is written
to the file, and the handler answers 201 — not 500. -/
theorem short_read_not_500 :
    handleConn
        (strToBytes "POST /files/f.txt HTTP/1.1\r\nContent-Length: 5\r\n\r\nabc")
        {} [] sampleNow =
      .ok { writes := [buildResponse statusCreated none sampleNow],
            fs := { files := [(strToBytes "f.txt", strToBytes "abc" ++ [0, 0])] },
            errored := false }
    ∧ buildResponse statusCreated none sampleNow
        ≠ buildResponse statusInternalServerError none sampleNow := by decide

/-- C5 counterexample. The claim says a `Content-Length` value that fails to
parse leaves the field at its previous value. The Go code stores `conLen`
unconditionally, and `strconv.Atoi` returns 0 on a syntax error: a request
whose field was 5 ends up with 0. -/
theorem contentLength_overwritten :
    parseHeader (strToBytes "Content-Length: abc\r\n")
        ({ contentLength := 5 } : request) =
      .ok ({ contentLength := 0 } : request)
    ∧ (0 : Int) ≠ 5 := by decide

/-- C6 counterexample. The claim says the stored value is everything after
the first colon even when it contains further colons. `strings.Split` splits
on every colon and the code reads `parts[1]`, so `Host: a:b` stores `a`,
not `a:b`. -/
theorem host_value_truncated :
    parseHeader (strToBytes "Host: a:b\r\n") ({} : request) =
      .ok ({ host := strToBytes "a" } : request)
    ∧ strToBytes "a" ≠ strToBytes "a:b" := by decide

/-- C9 counterexample. The claim says every non-CRLF line — including a
two-byte line that is not `\r\n` — is passed to the Header Parser and the
loop stops only on `\r\n`. The loop stops on raw length 2: on input
starting with `X\n` it terminates at once, leaving the following `Host`
header line unconsumed and unparsed. -/
theorem header_loop_two_byte_stop :
    parseHeaders (strToBytes "X\nHost: h\r\n\r\n") ({} : request) =
      .ok (({} : request), strToBytes "Host: h\r\n\r\n")
    ∧ strToBytes "X\n" ≠ crlf := by decide

/-- C10 counterexample. The claim says any header line, even one with no
colon, is handled without out-of-bounds access. A colonless line whose
trimmed text is a recognized key reaches `parts[1]` with a one-element
split result: `Host\r\n` panics with index out of range. -/
theorem colonless_host_panics :
    parseHeader (strToBytes "Host\r\n") ({} : request) = .error .indexOOB := by
  decide

/-- C10 amended. The Header Parser completes without out-of-bounds access
exactly on the lines that contain a colon or whose trimmed text is not one
of the three recognized keys; a colonless line whose whole trimmed text is
`Host`, `User-Agent` or `Content-Length` reads `parts[1]` of a one-element
split result and panics. -/
theorem parseHeader_panic_iff (line : List Nat) (req : request) :
    parseHeader line req = .error .indexOOB ↔
      58 ∉ line ∧ trimBytes wsCut line ∈
        [strToBytes "Host", strToBytes "User-Agent",
         strToBytes "Content-Length"] := by
  by_cases hmem : 58 ∈ line
  · have h2 := splitOnByte_length_ge_two 58 line hmem
    constructor
    · intro herr
      exfalso
      rcases hp : splitOnByte 58 line with _ | ⟨a, t⟩
      · exact splitOnByte_ne_nil 58 line hp
      · rcases t with _ | ⟨b2, t2⟩
        · rw [hp] at h2; simp at h2
        · rw [parseHeader] at herr
          simp only [hp] at herr
          split_ifs at herr <;> simp_all
    · intro hrhs
      exact absurd hmem hrhs.1
  · have hp : splitOnByte 58 line = [line] := splitOnByte_not_mem 58 line hmem
    rw [parseHeader]
    simp only [hp, List.headD_cons]
    have hget : ([line] : List (List Nat)).get? 1 = none := rfl
    rw [hget]
    split_ifs with h1 h2 h3 <;> simp_all

/-- C5 amended. Whenever a header line has key `Content-Length` and a value
part whose trimmed text fails `strconv.Atoi`, the parser stores 0 into the
`contentLength` field (the unconditional `req.contentLength = conLen`
assignment with Atoi's zero result), regardless of the previous value. -/
theorem contentLength_parse_failure_zero (line : List Nat) (req : request)
    (v : List Nat)
    (h1 : trimBytes wsCut ((splitOnByte 58 line).headD []) =
      strToBytes "Content-Length")
    (h2 : (splitOnByte 58 line).get? 1 = some v)
    (h3 : atoiBytes (trimBytes wsCut v) = none) :
    parseHeader line req = .ok { req with contentLength := 0 } := by
  have hA : strToBytes "Content-Length" ≠ strToBytes "Host" := by decide
  have hB : strToBytes "Content-Length" ≠ strToBytes "User-Agent" := by decide
  rw [parseHeader]
  simp only [h1, if_neg hA, if_neg hB, if_pos rfl, h2, h3]
  simp

/-- C5 witness: a request with `contentLength = 5` receiving
`Content-Length: abc` ends with `contentLength = 0`. -/
theorem contentLength_parse_failure_zero_w :
    parseHeader (strToBytes "Content-Length: abc\r\n")
        ({ contentLength := 5 } : request) =
      .ok ({ contentLength := 0 } : request) :=
  contentLength_parse_failure_zero (strToBytes "Content-Length: abc\r\n")
    ({ contentLength := 5 } : request) (strToBytes " abc\r\n")
    (by decide) (by decide) (by decide)

/-- C6 amended. `strings.Split(line, ":")` splits on every colon, and the
code stores `parts[1]`: for a `Host` header whose value contains a further
colon, the stored value is only the trimmed text between the first and the
second colon, not everything after the first colon. -/
theorem header_value_second_colon (v w : List Nat) (req : request)
    (hv : 58 ∉ v) (htrim : trimBytes wsCut v = v) :
    parseHeader (strToBytes "Host: " ++ v ++ 58 :: w ++ crlf) req =
      .ok { req with host := v } := by
  have hv2 : (58 : Nat) ∉ 32 :: v := by
    intro h
    rcases List.mem_cons.mp h with h1 | h1
    · simp at h1
    · exact hv h1
  have he : strToBytes "Host: " ++ v ++ 58 :: w ++ crlf
      = strToBytes "Host" ++ 58 :: ((32 :: v) ++ 58 :: (w ++ crlf)) := by
    have : strToBytes "Host: " = strToBytes "Host" ++ [58, 32] := by decide
    simp [this]
  have hs : splitOnByte 58 (strToBytes "Host: " ++ v ++ 58 :: w ++ crlf)
      = strToBytes "Host" :: (32 :: v) :: splitOnByte 58 (w ++ crlf) := by
    rw [he, splitOnByte_append 58 _ _ (by decide),
      splitOnByte_append 58 _ _ hv2]
  have hkey : trimBytes wsCut (strToBytes "Host") = strToBytes "Host" := by
    decide
  have hval : trimBytes wsCut (32 :: v) = v := by
    rw [trimBytes_cons_of_mem wsCut 32 v (by decide), htrim]
  rw [parseHeader]
  simp only [hs, List.headD_cons, hkey, if_pos rfl]
  have hget : (strToBytes "Host" :: (32 :: v)
      :: splitOnByte 58 (w ++ crlf)).get? 1 = some (32 :: v) := rfl
  rw [hget]
  simp only [hval]
  simp

/-- C6 witness: `Host: a:b` stores `a`. -/
theorem header_value_second_colon_w :
    parseHeader (strToBytes "Host: " ++ strToBytes "a"
        ++ 58 :: strToBytes "b" ++ crlf) ({} : request) =
      .ok ({ host := strToBytes "a" } : request) :=
  header_value_second_colon (strToBytes "a") (strToBytes "b") ({} : request)
    (by decide) (by decide)

/-- C9 amended. The header loop terminates exactly when the raw byte length
of the line just read is 2 — that covers the CRLF terminator but also any
other two-byte line — and only lines of length ≠ 2 are passed to the
Header Parser, the loop then continuing on the remainder. -/
theorem header_loop_stops_on_len2 (s line rest : List Nat) (req : request)
    (h : readLine s = some (line, rest)) :
    (line.length = 2 → parseHeaders s req = .ok (req, rest))
    ∧ (line.length ≠ 2 →
        parseHeaders s req =
          match parseHeader line req with
          | .error g => .error (.panicked g)
          | .ok req2 => parseHeaders rest req2) := by
  constructor <;> intro hl <;> rw [parseHeaders_step, h] <;> simp [hl]

/-- C9 witness: a stream starting with the two-byte line `\r\n` makes the
loop stop at once with the rest unconsumed. -/
theorem header_loop_stops_on_len2_w :
    parseHeaders (strToBytes "\r\nX") ({} : request) =
      .ok (({} : request), strToBytes "X") :=
  (header_loop_stops_on_len2 (strToBytes "\r\nX") crlf (strToBytes "X")
    ({} : request) (by decide)).1 (by decide)

/-- C7. Every GET request whose path segment 1 is `echo` gets the 200
response with content type `text/plain` and body equal to the segments from
index 2 onward rejoined with `/` (the empty byte string when there are no
such segments, because `joinSlash [] = []`). The handler then appends the
stray 405 response recorded by C1; the echo response itself is exactly as
the claim states. -/
theorem echo_route_response (req : request) (body : List Nat) (fs : FS)
    (dir now : List Nat) (p0 : List Nat) (rest : List (List Nat))
    (hm : req.method = methodGet)
    (hp : req.pathParts = p0 :: strToBytes "echo" :: rest) :
    routeAndWrite req body fs dir now =
      .ok { writes := [buildResponse statusOK
              (some ⟨strToBytes "text/plain", joinSlash rest⟩) now,
            buildResponse statusMethodNotAllowed none now], fs := fs }
    ∧ (rest = [] → joinSlash rest = []) := by
  have d1 : methodGet ≠ methodPost := by decide
  have d2 : strToBytes "echo" ≠ ([] : List Nat) := by decide
  constructor
  · simp [routeAndWrite, hm, hp, d1, d2]
  · rintro rfl; rfl

/-- C7 witness: `GET /echo/foo/bar` produces the 200 text/plain response
with body `foo/bar`. -/
theorem echo_route_response_w :
    routeAndWrite
        { method := methodGet,
          pathParts := [[], strToBytes "echo", strToBytes "foo",
            strToBytes "bar"] } [] {} [] sampleNow =
      .ok { writes := [buildResponse statusOK
              (some ⟨strToBytes "text/plain", strToBytes "foo/bar"⟩) sampleNow,
            buildResponse statusMethodNotAllowed none sampleNow],
            fs := {} } :=
  ((echo_route_response _ [] {} [] sampleNow []
      [strToBytes "foo", strToBytes "bar"] rfl rfl).1).trans (by decide)

/-- C3 amended. A GET request whose path is `/` only (`pathParts = ["",""]`)
never reads the path segment at index 2 — the root route completes with its
200 (and the stray 405). But the files routes perform no segment-count
validation: with exactly two segments (path `/files`), both the GET route
and the POST route (once its body read succeeds, e.g. with
`Content-Length` 0) reach the unguarded `pathParts[2]` access and panic
instead of responding 400. -/
theorem short_path_routing (req : request) (body : List Nat) (fs : FS)
    (dir now : List Nat) :
    (req.method = methodGet → req.pathParts = [[], []] →
      routeAndWrite req body fs dir now =
        .ok { writes := [buildResponse statusOK none now,
              buildResponse statusMethodNotAllowed none now], fs := fs })
    ∧ (req.method = methodGet → req.pathParts = [[], strToBytes "files"] →
      routeAndWrite req body fs dir now = .error .indexOOB)
    ∧ (req.method = methodPost → req.pathParts = [[], strToBytes "files"] →
      req.contentLength = 0 →
      routeAndWrite req body fs dir now = .error .indexOOB) := by
  have d1 : methodGet ≠ methodPost := by decide
  have d2 : strToBytes "files" ≠ ([] : List Nat) := by decide
  have d3 : strToBytes "files" ≠ strToBytes "echo" := by decide
  have d4 : strToBytes "files" ≠ strToBytes "user-agent" := by decide
  refine ⟨fun hm hp => ?_, fun hm hp => ?_, fun hm hp hcl => ?_⟩
  · simp [routeAndWrite, hm, hp, d1]
  · simp [routeAndWrite, hm, hp, d1, d2, d3, d4]
  · simp [routeAndWrite, hm, hp, hcl]

/-- C3 witness: the root route completes normally while `GET /files`
panics. -/
theorem short_path_routing_w :
    routeAndWrite { method := methodGet, pathParts := [[], strToBytes "files"] }
        [] {} [] sampleNow = .error .indexOOB :=
  (short_path_routing _ [] {} [] sampleNow).2.1 rfl rfl

/-- C4 amended. On the POST files route the handler performs a single
`Read` into a buffer of the declared length n: it responds 500 only when
that read yields an error, i.e. when n > 0 and no body byte is available at
all; otherwise it writes the n-byte buffer — the available bytes followed
by zero bytes when the read was short — to the file and responds 201
(or 500 when the file write itself fails). A short read that returns some
bytes is not detected. -/
theorem post_files_behavior (req : request) (body : List Nat) (fs : FS)
    (dir now : List Nat) (p0 name : List Nat) (rest : List (List Nat))
    (hm : req.method = methodPost)
    (hp : req.pathParts = p0 :: strToBytes "files" :: name :: rest)
    (hn : 0 ≤ req.contentLength) :
    (req.contentLength.toNat ≠ 0 ∧ body = [] →
      routeAndWrite req body fs dir now =
        .ok { writes := [buildResponse statusInternalServerError none now],
              fs := fs, errored := true })
    ∧ (¬ (req.contentLength.toNat ≠ 0 ∧ body = []) →
        (dir ++ name ∈ fs.badWrites →
          routeAndWrite req body fs dir now =
            .ok { writes := [buildResponse statusInternalServerError none now],
                  fs := fs, errored := true })
        ∧ (dir ++ name ∉ fs.badWrites →
          routeAndWrite req body fs dir now =
            .ok { writes := [buildResponse statusCreated none now],
                  fs := { fs with files := (dir ++ name,
                    body.take req.contentLength.toNat
                    ++ List.replicate (req.contentLength.toNat
                        - (body.take req.contentLength.toNat).length) 0)
                    :: fs.files },
                  errored := false })) := by
  have hneg : ¬ req.contentLength < 0 := by omega
  refine ⟨fun hshort => ?_, fun hok => ⟨fun hbad => ?_, fun hgood => ?_⟩⟩
  · simp [routeAndWrite, hm, hp, hneg, hshort]
  · simp [routeAndWrite, hm, hp, hneg, hok, writeFileFS, hbad]
  · simp [routeAndWrite, hm, hp, hneg, hok, writeFileFS, hgood]
    rw [if_neg (by omega), if_neg (fun hc => hok ⟨by omega, hc.2⟩)]

/-- C4 witness, at the short-read input: declared length 5, three available
body bytes; the write goes through with the zero-padded buffer and the
response is 201. -/
theorem post_files_behavior_w :
    routeAndWrite
        { method := methodPost,
          pathParts := [[], strToBytes "files", strToBytes "f"],
          contentLength := 5 } (strToBytes "abc") {} [] sampleNow =
      .ok { writes := [buildResponse statusCreated none sampleNow],
            fs := { files := [(strToBytes "f", strToBytes "abc" ++ [0, 0])] },
            errored := false } :=
  (((post_files_behavior _ (strToBytes "abc") {} [] sampleNow []
      (strToBytes "f") [] rfl rfl (by decide)).2
    (by decide)).2 (by decide)).trans (by decide)

/-- C8. Round trip: POSTing body b to `/files/<name>` with matching
`Content-Length` stores exactly b in the file system (201, no body), and a
following `GET /files/<name>` against the same serving root answers 200
with content type `application/octet-stream` and body exactly b. -/
theorem files_roundtrip (b name p0 q0 : List Nat) (fs : FS)
    (dir now : List Nat) (hw : dir ++ name ∉ fs.badWrites) :
    routeAndWrite
        { method := methodPost, pathParts := [p0, strToBytes "files", name],
          contentLength := (b.length : Int) } b fs dir now =
      .ok { writes := [buildResponse statusCreated none now],
            fs := { fs with files := (dir ++ name, b) :: fs.files } }
    ∧ routeAndWrite
        { method := methodGet, pathParts := [q0, strToBytes "files", name] }
        [] { fs with files := (dir ++ name, b) :: fs.files } dir now =
      .ok { writes := [buildResponse statusOK
              (some ⟨contentTypeOctetStream, b⟩) now,
            buildResponse statusMethodNotAllowed none now],
            fs := { fs with files := (dir ++ name, b) :: fs.files } } := by
  have d1 : methodGet ≠ methodPost := by decide
  have d2 : strToBytes "files" ≠ ([] : List Nat) := by decide
  have d3 : strToBytes "files" ≠ strToBytes "echo" := by decide
  have d4 : strToBytes "files" ≠ strToBytes "user-agent" := by decide
  have hneg : ¬ ((b.length : Int) < 0) := by omega
  have htn : ((b.length : Int)).toNat = b.length := by omega
  have hread : ¬ (b.length ≠ 0 ∧ b = []) := by
    rintro ⟨h1, rfl⟩; exact h1 rfl
  constructor
  · simp [routeAndWrite, hneg, htn, hread, writeFileFS, hw]
  · simp [routeAndWrite, d1, d2, d3, d4, readFileFS]

/-- C8 witness: body `hello` round-trips through file `a`. -/
theorem files_roundtrip_w :
    routeAndWrite
        { method := methodGet, pathParts := [[], strToBytes "files",
          strToBytes "a"] } []
        { files := [(strToBytes "a", strToBytes "hello")] } [] sampleNow =
      .ok { writes := [buildResponse statusOK
              (some ⟨contentTypeOctetStream, strToBytes "hello"⟩) sampleNow,
            buildResponse statusMethodNotAllowed none sampleNow],
            fs := { files := [(strToBytes "a", strToBytes "hello")] } } :=
  ((files_roundtrip (strToBytes "hello") (strToBytes "a") [] [] {} []
      sampleNow (by decide)).2).trans (by decide)

end NaiveServer
